import Mathlib

/-!
Verification development for the SEO content difference engine.

The Python sources under src/ are shallowly embedded: pure helper methods
become Lean functions on strings, lists and a small DOM tree type; machine
floats in the metric computations are modelled as rationals with explicit
two-decimal rounding; fallible steps are modelled with Option and Except.
Each section names the source file and function it embeds.
-/

namespace SeoDiff

/-! ## Basic string helpers shared by several components

Python builtins used by the source are modelled on top of the Lean core
string functions: str.strip is String.trim, str.lower is String.toLower,
the str membership test (pat in s) is substring containment, and str.split
with no argument splits on whitespace runs and drops empty tokens. -/

/-- Occurrence of pat at some position of the list, scanning left to right. -/
def hasSub (pat : List Char) : List Char → Bool
  | [] => pat.isEmpty
  | c :: cs => pat.isPrefixOf (c :: cs) || hasSub pat cs

/-- Substring containment, the model of the Python expression pat in s. -/
def containsSub (s pat : String) : Bool :=
  hasSub pat.toList s.toList

/-- The model of Python str.strip with no argument: remove whitespace from
both ends. -/
def pyStrip (s : String) : String :=
  String.mk (((s.toList.dropWhile Char.isWhitespace).reverse.dropWhile
    Char.isWhitespace).reverse)

/-- The model of Python str.lower (the sources only ever lower ASCII). -/
def pyLower (s : String) : String :=
  String.mk (s.toList.map Char.toLower)

/-- The model of Python str.startswith. -/
def pyStartsWith (s pre : String) : Bool :=
  pre.toList.isPrefixOf s.toList

/-- Accumulator pass behind splitWs: cur holds the current token reversed. -/
def wsTokensAux : List Char → List Char → List String
  | cur, [] => if cur.isEmpty then [] else [String.mk cur.reverse]
  | cur, c :: cs =>
    if c.isWhitespace then
      (if cur.isEmpty then [] else [String.mk cur.reverse]) ++ wsTokensAux [] cs
    else wsTokensAux (c :: cur) cs

/-- The model of Python str.split with no separator: split on whitespace
runs and drop the empty pieces. -/
def splitWs (s : String) : List String :=
  wsTokensAux [] s.toList

/-! ## src/src/engine/models.py, URLInput.__post_init__

The validator rejects the empty string, lowercases and strips the URL and
then requires an http or https scheme.  Note that the stripped, lowercased
copy is used only for the check; the stored value keeps its whitespace. -/

/-- Embedding of URLInput.__post_init__ from src/src/engine/models.py:
returns true exactly when construction succeeds (no ValueError). -/
def urlInputValid (s : String) : Bool :=
  if s = "" then false
  else
    let u := pyStrip (pyLower s)
    pyStartsWith u "http://" || pyStartsWith u "https://"

/-! ## src/src/engine/job_runner.py, JobRunner._validate_and_deduplicate

The source builds a Python set of the stripped non-blank inputs that pass
URLInput validation and returns list(validated).  The contents of the set
are the distinct surviving strings; the order in which list() enumerates
them is decided by the hash-based set iteration, which the embedding keeps
abstract as a parameter enum applied to the first-seen list of contents. -/

/-- Embedding of JobRunner._validate_and_deduplicate.  The first-seen list
of distinct validated URLs is the exact contents of the Python set; enum
models the unspecified order in which list() enumerates that set. -/
def validateAndDeduplicate (enum : List String → List String)
    (urls : List String) : List String :=
  enum (urls.foldl (fun acc u =>
    let u2 := pyStrip u
    if u2 = "" then acc
    else if urlInputValid u2 then
      (if acc.contains u2 then acc else acc ++ [u2])
    else acc) [])

/-! ## src/src/engine/fetcher.py, JSRenderedFetcher._wait_for_content

The wait step dispatches on the configured strategy string.  The final
else branch calls self._wait_for_content again with the strategy field
unchanged, so the recursion never makes progress; the embedding makes the
recursion depth explicit with a fuel argument (one unit per Python stack
frame) and reports none when the fuel runs out. -/

/-- Embedding of JSRenderedFetcher._wait_for_content: returns the awaited
action for recognized strategies, and recurses on itself (consuming fuel)
for any other strategy, exactly as the source does. -/
def waitForContentFuel (strategy : String) : Nat → Option String
  | 0 => none
  | n + 1 =>
    if strategy = "network_idle" then some "wait_networkidle"
    else if strategy = "load" then some "wait_load"
    else if strategy = "timeout" then some "sleep_half_timeout"
    else waitForContentFuel strategy n

/-! ## src/src/engine/models.py, DifferenceReport

Word counts are naturals; the float metrics are modelled as rationals and
Python round(x, 2) as rounding x times one hundred to the nearest integer
and dividing back. -/

/-- Model of Python round(x, 2) on the rationals. -/
def round2 (x : ℚ) : ℚ :=
  ((round (x * 100) : ℤ) : ℚ) / 100

/-- Embedding of the DifferenceReport dataclass fields. -/
structure DifferenceReport where
  text_only_with_js : List String
  text_only_without_js : List String
  headings_missing_without_js : List String
  headings_extra_without_js : List String
  internal_links_missing_without_js : List (String × String)
  internal_links_extra_without_js : List (String × String)
  raw_word_count : Nat
  rendered_word_count : Nat
  raw_heading_count : Nat
  rendered_heading_count : Nat
  raw_internal_link_count : Nat
  rendered_internal_link_count : Nat
deriving Repr, DecidableEq

/-- Embedding of the DifferenceReport.word_count_delta property. -/
def DifferenceReport.word_count_delta (d : DifferenceReport) : ℤ :=
  (d.rendered_word_count : ℤ) - (d.raw_word_count : ℤ)

/-- Embedding of DifferenceReport.content_invisible_without_js_percentage:
zero when the rendered count is zero or does not exceed the raw count,
otherwise the rounded percentage. -/
def DifferenceReport.content_invisible_without_js_percentage
    (d : DifferenceReport) : ℚ :=
  if d.rendered_word_count = 0 then 0
  else if d.rendered_word_count ≤ d.raw_word_count then 0
  else round2 ((((d.rendered_word_count : ℚ) - (d.raw_word_count : ℚ)) /
    (d.rendered_word_count : ℚ)) * 100)

/-- A difference report with the given word counts and all other fields
empty or zero, used to instantiate metric statements. -/
def mkDiffReport (raw rendered : Nat) : DifferenceReport :=
  ⟨[], [], [], [], [], [], raw, rendered, 0, 0, 0, 0⟩

/-! ## src/src/engine/extractor.py: the DOM model

BeautifulSoup and lxml are external libraries: parsing is out of scope and
best-effort (spec section 4.1 step 1), so the extractor is embedded as a
function of the parsed tree.  An element carries exactly the attributes the
extractor reads: tag name (lowercased by the parser), id, role, inline
style, the multi-valued class attribute, aria-hidden, and href. -/

/-- The attributes of a parsed element that the extractor inspects. -/
structure ElemData where
  tag : String
  idAttr : String
  role : String
  style : String
  classes : List String
  ariaHidden : String
  href : Option String
deriving Repr, DecidableEq

/-- A parsed DOM node: a text node, a comment node, or an element with its
children in document order. -/
inductive Node where
  | text : String → Node
  | comment : String → Node
  | elem : ElemData → List Node → Node
deriving Repr

/-- An element with the given tag, no other attributes, and the given
children; used to build concrete test documents. -/
def mkTag (tag : String) (children : List Node) : Node :=
  Node.elem ⟨tag, "", "", "", [], "", none⟩ children

/-- Python str.join generalized: join a list of strings with a separator,
the model of sep.join(parts). -/
def joinWith (sep : String) : List String → String
  | [] => ""
  | [x] => x
  | x :: xs => x ++ sep ++ joinWith sep xs

/-- All text-node strings of a forest in document order, the model of
iterating soup.find_all(string=True) restricted to a subtree (comments are
NavigableStrings too, but every use site runs after comment removal). -/
def allStrings : List Node → List String
  | [] => []
  | Node.text s :: rest => s :: allStrings rest
  | Node.comment _ :: rest => allStrings rest
  | Node.elem _ cs :: rest => allStrings cs ++ allStrings rest

/-- Model of element.get_text() on a children forest: concatenation of the
descendant strings. -/
def getText (ns : List Node) : String :=
  joinWith "" (allStrings ns)

/-- Model of element.get_text(strip=True): each descendant string is
stripped before the empty-separator join. -/
def getTextStrip (ns : List Node) : String :=
  joinWith "" ((allStrings ns).map pyStrip)

/-- Space-joined class attribute, the model of a space-join of the class list of element. -/
def joinClasses (cl : List String) : String :=
  joinWith " " cl

/-! ## ContentExtractor._remove_ignored_elements -/

/-- The IGNORED_TAGS set of ContentExtractor. -/
def ignoredTags : List String :=
  ["script", "style", "noscript", "iframe", "svg", "path", "circle", "rect",
   "polygon", "line", "ellipse", "defs", "use", "g", "symbol", "marker",
   "pattern", "filter", "mask", "clippath", "textpath"]

/-- First half of _remove_ignored_elements: decompose every element whose
tag is in IGNORED_TAGS and extract every comment node. -/
def scrubNodes : List Node → List Node
  | [] => []
  | Node.text s :: rest => Node.text s :: scrubNodes rest
  | Node.comment _ :: rest => scrubNodes rest
  | Node.elem e cs :: rest =>
    if ignoredTags.contains e.tag then scrubNodes rest
    else Node.elem e (scrubNodes cs) :: scrubNodes rest

/-- The id and class attribute substrings of the COOKIE_BANNER_SELECTORS
list together with the dialog-role variant: a CSS attribute substring
selector is a case-sensitive substring test on the attribute value. -/
def matchesCookieSelector (e : ElemData) : Bool :=
  containsSub e.idAttr "cookie" || containsSub (joinClasses e.classes) "cookie" ||
  containsSub e.idAttr "consent" || containsSub (joinClasses e.classes) "consent" ||
  containsSub e.idAttr "gdpr" || containsSub (joinClasses e.classes) "gdpr" ||
  (e.role = "dialog" && containsSub e.idAttr "cookie")

/-- The keyword list checked against the lowercased element text before a
cookie banner is removed. -/
def cookieKeywords : List String :=
  ["cookie", "consent", "privacy", "accept", "reject"]

/-- Whether the selector matched and the element text holds a keyword, the
condition under which _remove_ignored_elements decomposes the element. -/
def isCookieBanner (e : ElemData) (cs : List Node) : Bool :=
  matchesCookieSelector e &&
    cookieKeywords.any (fun w => containsSub (pyLower (getText cs)) w)

/-- Second half of _remove_ignored_elements: one top-down pass removing
cookie-banner subtrees (the source iterates soup.select results in
document order, which removes the same subtrees). -/
def removeCookieBanners : List Node → List Node
  | [] => []
  | Node.text s :: rest => Node.text s :: removeCookieBanners rest
  | Node.comment c :: rest => Node.comment c :: removeCookieBanners rest
  | Node.elem e cs :: rest =>
    if isCookieBanner e cs then removeCookieBanners rest
    else Node.elem e (removeCookieBanners cs) :: removeCookieBanners rest

/-! ## ContentExtractor._is_element_visible

The source walks from an element up through its parents; the embedding
passes that upward chain explicitly, innermost element first.  The fueled
variant spends one unit of fuel per Python stack frame and answers none
when the frames run out. -/

/-- The hidden-element test applied to a single element: inline style
substrings, a substring test on the space-joined lowercased class
attribute, and a case-insensitive aria-hidden equality. -/
def hiddenMarker (e : ElemData) : Bool :=
  containsSub (pyLower e.style) "display:none" ||
  containsSub (pyLower e.style) "visibility:hidden" ||
  containsSub (pyLower (joinClasses e.classes)) "hidden" ||
  pyLower e.ariaHidden = "true"

/-- Embedding of _is_element_visible on the upward chain of an element and
its ancestors. -/
def isElementVisible : List ElemData → Bool
  | [] => true
  | e :: anc => if hiddenMarker e then false else isElementVisible anc

/-- The same recursion with explicit fuel, one unit per recursive call of
the source. -/
def isElementVisibleFuel : Nat → List ElemData → Option Bool
  | 0, _ => none
  | _ + 1, [] => some true
  | n + 1, e :: anc =>
    if hiddenMarker e then some false else isElementVisibleFuel n anc

/-! ## ContentExtractor._extract_visible_text -/

/-- Strings of the text nodes of a forest whose full parent chain passes
the visibility walk; chain is the list of ancestors of the forest root,
innermost first. -/
def collectVisible (chain : List ElemData) : List Node → List String
  | [] => []
  | Node.text s :: rest =>
    (if isElementVisible chain then [s] else []) ++ collectVisible chain rest
  | Node.comment _ :: rest => collectVisible chain rest
  | Node.elem e cs :: rest =>
    collectVisible (e :: chain) cs ++ collectVisible chain rest

/-- The visible-string collection with the fueled visibility walk, giving
each text node exactly the stack frames the source would use. -/
def collectVisibleF (chain : List ElemData) : List Node → Option (List String)
  | [] => some []
  | Node.text s :: rest => do
    let v ← isElementVisibleFuel (chain.length + 1) chain
    let tl ← collectVisibleF chain rest
    pure ((if v then [s] else []) ++ tl)
  | Node.comment _ :: rest => collectVisibleF chain rest
  | Node.elem e cs :: rest => do
    let a ← collectVisibleF (e :: chain) cs
    let b ← collectVisibleF chain rest
    pure (a ++ b)

/-- One pass collapsing every whitespace run to a single space; the flag
records whether the scan is inside a whitespace run. -/
def collapseWsAux : Bool → List Char → List Char
  | _, [] => []
  | inWs, c :: cs =>
    if c.isWhitespace then
      (if inWs then collapseWsAux true cs else ' ' :: collapseWsAux true cs)
    else c :: collapseWsAux false cs

/-- Embedding of _normalize_whitespace: collapse whitespace runs to single
spaces, then remove leading and trailing whitespace (no newline survives
the collapse, so the MULTILINE edge-trim of the source is a plain trim). -/
def normalizeWhitespaceM (s : String) : String :=
  pyStrip (String.mk (collapseWsAux false s.toList))

/-- Embedding of _extract_visible_text: join the visible strings with
single spaces, normalize, and strip. -/
def extractVisibleText (ns : List Node) : String :=
  pyStrip (normalizeWhitespaceM (joinWith " " (collectVisible [] ns)))

/-! ## ContentExtractor._extract_headings -/

/-- The HEADING_TAGS list of ContentExtractor. -/
def headingTags : List String :=
  ["h1", "h2", "h3", "h4", "h5", "h6"]

/-- Children forests of every element with the given tag, in document
order, the model of soup.find_all(tag). -/
def findTag (t : String) : List Node → List (List Node)
  | [] => []
  | Node.text _ :: rest => findTag t rest
  | Node.comment _ :: rest => findTag t rest
  | Node.elem e cs :: rest =>
    (if e.tag = t then [cs] else []) ++ findTag t cs ++ findTag t rest

/-- Embedding of _extract_headings: for each heading tag in turn, collect
the stripped text of every element with that tag, keeping the non-empty
ones — one level at a time, exactly as the source loops. -/
def extractHeadings (ns : List Node) : List String :=
  (headingTags.map (fun t => (findTag t ns).filterMap (fun cs =>
    let s := getTextStrip cs
    if s = "" then none else some s))).flatten

/-- The heading list in document order, the ordering the specification
requires in section 4.1 step 6: every non-empty h1-h6 text in the order
the elements appear in the source. -/
def headingsInDocumentOrder : List Node → List String
  | [] => []
  | Node.text _ :: rest => headingsInDocumentOrder rest
  | Node.comment _ :: rest => headingsInDocumentOrder rest
  | Node.elem e cs :: rest =>
    (if headingTags.contains e.tag then
      (let s := getTextStrip cs; if s = "" then [] else [s])
    else []) ++ headingsInDocumentOrder cs ++ headingsInDocumentOrder rest

/-! ## ContentExtractor._extract_internal_links and _is_internal_link

urllib.parse is an external library.  Its netloc extraction is modelled
for URLs of the usual scheme-colon-slash-slash-host-slash-path shape: the
host is whatever follows the first double slash, up to the next slash,
question mark or hash.  urljoin is modelled for the reference shapes the
extractor meets: absolute references pass through, scheme-relative,
root-relative and bare-relative references are resolved against the
base. -/

/-- Drop everything up to and including the first double slash; none when
the string has no double slash. -/
def dropThroughDoubleSlash : List Char → Option (List Char)
  | '/' :: '/' :: rest => some rest
  | _ :: rest => dropThroughDoubleSlash rest
  | [] => none

/-- Model of urlparse(u).netloc for the URL shapes used here. -/
def hostPart (u : String) : String :=
  match dropThroughDoubleSlash u.toList with
  | none => ""
  | some rest =>
    String.mk (rest.takeWhile (fun c => c ≠ '/' && c ≠ '?' && c ≠ '#'))

/-- Model of the Python expression of replacing the string www-dot by the
empty string on a character list: scan left to right, removing each
non-overlapping occurrence. -/
def remWwwChars : List Char → List Char
  | 'w' :: 'w' :: 'w' :: '.' :: rest => remWwwChars rest
  | c :: rest => c :: remWwwChars rest
  | [] => []

/-- String version of remWwwChars, the model of host.replace with the
www-dot pattern and empty replacement. -/
def pyReplaceWww (s : String) : String :=
  String.mk (remWwwChars s.toList)

/-- Embedding of _is_internal_link: no base URL makes every link internal;
otherwise the hosts are compared after the replace call removes every
occurrence of the www-dot substring from each. -/
def isInternalLink (baseUrl : Option String) (href : String) : Bool :=
  match baseUrl with
  | none => true
  | some b => pyReplaceWww (hostPart b) == pyReplaceWww (hostPart href)

/-- Scheme of a URL: the part before the first colon, defaulting to http. -/
def schemeOf (u : String) : String :=
  let pre := u.toList.takeWhile (fun c => c ≠ ':')
  if pre.length = u.toList.length then "http" else String.mk pre

/-- The base URL up to and including its last slash, used to resolve a
bare relative reference. -/
def upToLastSlash (u : String) : String :=
  let after := u.toList.reverse.dropWhile (fun c => c ≠ '/')
  match after with
  | [] => u ++ "/"
  | _ => String.mk after.reverse

/-- Model of urllib.parse.urljoin for the reference shapes the extractor
meets. -/
def urljoinModel (base href : String) : String :=
  if pyStartsWith href "http://" || pyStartsWith href "https://" then href
  else if pyStartsWith href "//" then schemeOf base ++ ":" ++ href
  else if pyStartsWith href "/" then
    schemeOf base ++ "://" ++ hostPart base ++ href
  else upToLastSlash base ++ href

/-- Anchor elements with an href attribute, in document order, with their
children forests; the model of soup.find_all of anchors with href. -/
def findLinks : List Node → List (ElemData × List Node)
  | [] => []
  | Node.text _ :: rest => findLinks rest
  | Node.comment _ :: rest => findLinks rest
  | Node.elem e cs :: rest =>
    (if e.tag = "a" && e.href.isSome then [(e, cs)] else []) ++
      findLinks cs ++ findLinks rest

/-- Embedding of _extract_internal_links: strip the href, drop links with
empty href or anchor text, drop javascript, mailto, tel and fragment
references, resolve against the base when one is set, and keep the link
when _is_internal_link accepts it.  A link is the pair of href and anchor
text. -/
def extractInternalLinks (baseUrl : Option String) (ns : List Node) :
    List (String × String) :=
  (findLinks ns).filterMap (fun ec =>
    let href0 := pyStrip (ec.1.href.getD "")
    let anchor := getTextStrip ec.2
    if href0 = "" || anchor = "" then none
    else if pyStartsWith href0 "javascript:" || pyStartsWith href0 "mailto:" ||
        pyStartsWith href0 "tel:" || pyStartsWith href0 "#" then none
    else
      let href := match baseUrl with
        | some b => urljoinModel b href0
        | none => href0
      if isInternalLink baseUrl href then some (href, anchor) else none)

/-! ## ContentExtractor.extract and the ExtractedContent model -/

/-- Embedding of the ExtractedContent dataclass. -/
structure ExtractedContent where
  visible_text : String
  headings : List String
  internal_links : List (String × String)
deriving Repr, DecidableEq

/-- Embedding of the ExtractedContent.word_count property: the length of
the whitespace-token split of the visible text. -/
def ExtractedContent.word_count (c : ExtractedContent) : Nat :=
  (splitWs c.visible_text).length

/-- Embedding of the ExtractedContent.heading_count property. -/
def ExtractedContent.heading_count (c : ExtractedContent) : Nat :=
  c.headings.length

/-- Embedding of the ExtractedContent.internal_link_count property. -/
def ExtractedContent.internal_link_count (c : ExtractedContent) : Nat :=
  c.internal_links.length

/-- Embedding of ContentExtractor.extract on a parsed document: remove
ignored subtrees, comments and cookie banners, then build the extracted
content. -/
def extract (baseUrl : Option String) (html : List Node) : ExtractedContent :=
  let soup := removeCookieBanners (scrubNodes html)
  { visible_text := extractVisibleText soup
    headings := extractHeadings soup
    internal_links := extractInternalLinks baseUrl soup }

/-- The extract pipeline with the fueled visibility walk: the only
unbounded recursion of the source is the parent walk of
_is_element_visible, and this variant makes its stack use explicit,
reporting an error when the frames would run out. -/
def extractE (baseUrl : Option String) (html : List Node) :
    Except String ExtractedContent :=
  let soup := removeCookieBanners (scrubNodes html)
  match collectVisibleF [] soup with
  | none => Except.error "maximum recursion depth exceeded"
  | some parts => Except.ok
    { visible_text := pyStrip (normalizeWhitespaceM (joinWith " " parts))
      headings := extractHeadings soup
      internal_links := extractInternalLinks baseUrl soup }

/-! ## src/src/engine/differ.py, ContentDiffer

Python sets enter the differ in three places.  Sets of strings and of
link pairs are modelled as duplicate-free lists keeping the first
occurrence of each element: the contents agree with the Python set, and
wherever the source orders set-derived data (the sorted call on heading
differences keyed by first index) the first-seen order is exactly the
sorted result.  The link difference lists, whose order the source leaves
to set iteration, are modelled in first-seen order as one admissible
enumeration. -/

/-- Embedding of the block-accumulation loop of _group_words_into_blocks:
cur is the running block, cnt the running unique counter. -/
def goBlocks (uniq : List String) : List String → List String → Nat → List String
  | [], cur, cnt => if 3 ≤ cnt then [joinWith " " cur] else []
  | w :: ws, cur, cnt =>
    if uniq.contains (pyLower w) then goBlocks uniq ws (cur ++ [w]) (cnt + 1)
    else
      (if 3 ≤ cnt then [joinWith " " cur] else []) ++ goBlocks uniq ws [] 0

/-- Embedding of ContentDiffer._group_words_into_blocks: early exit on an
empty unique set, then the accumulation loop over the whitespace split of
the original text. -/
def groupWordsIntoBlocks (text : String) (uniq : List String) : List String :=
  if uniq.isEmpty then []
  else goBlocks uniq (splitWs text) [] 0

/-- The decomposition of a token sequence into its maximal contiguous runs
of tokens satisfying p, in order, dropping the separating tokens; the
reading of the block-grouping contract in spec section 4.2. -/
def uniqueRuns (p : String → Bool) : List String → List (List String)
  | [] => []
  | w :: ws =>
    if p w then (w :: ws.takeWhile p) :: uniqueRuns p (ws.dropWhile p)
    else uniqueRuns p ws
termination_by l => l.length
decreasing_by
  · simp only [List.length_cons]
    exact Nat.lt_succ_of_le (List.Sublist.length_le (List.dropWhile_sublist _))
  · simp

/-- Embedding of ContentDiffer._compare_text: lowercased token sets of the
two texts, their two differences, and the block grouping mapped back onto
each original text. -/
def compareText (raw_text rendered_text : String) :
    List String × List String :=
  let rawW := (splitWs (pyLower raw_text)).eraseDups
  let renW := (splitWs (pyLower rendered_text)).eraseDups
  let onlyJs := renW.filter (fun w => ¬ rawW.contains w)
  let onlyRaw := rawW.filter (fun w => ¬ renW.contains w)
  (groupWordsIntoBlocks rendered_text onlyJs,
   groupWordsIntoBlocks raw_text onlyRaw)

/-- Embedding of ContentDiffer._compare_headings: set differences ordered
by first index in the owning sequence. -/
def compareHeadings (raw ren : List String) : List String × List String :=
  ((ren.eraseDups).filter (fun h => ¬ raw.contains h),
   (raw.eraseDups).filter (fun h => ¬ ren.contains h))

/-- Embedding of ContentDiffer._compare_internal_links: set differences on
href-anchor pairs; the source leaves the order to set iteration and the
model uses first-seen order. -/
def compareLinks (raw ren : List (String × String)) :
    List (String × String) × List (String × String) :=
  ((ren.eraseDups).filter (fun l => ¬ raw.contains l),
   (raw.eraseDups).filter (fun l => ¬ ren.contains l))

/-- Embedding of ContentDiffer.compare assembling the difference report. -/
def compare (raw rendered : ExtractedContent) : DifferenceReport :=
  let t := compareText raw.visible_text rendered.visible_text
  let h := compareHeadings raw.headings rendered.headings
  let l := compareLinks raw.internal_links rendered.internal_links
  { text_only_with_js := t.1
    text_only_without_js := t.2
    headings_missing_without_js := h.1
    headings_extra_without_js := h.2
    internal_links_missing_without_js := l.1
    internal_links_extra_without_js := l.2
    raw_word_count := raw.word_count
    rendered_word_count := rendered.word_count
    raw_heading_count := raw.heading_count
    rendered_heading_count := rendered.heading_count
    raw_internal_link_count := raw.internal_link_count
    rendered_internal_link_count := rendered.internal_link_count }

/-! ## src/src/engine/models.py, the per-URL records

Fetching is an external collaborator (spec section 6): fetch outcomes are
inputs.  The html field carries the parsed tree, since parsing is the
external step between the fetcher and the extractor.  The timestamps of
JobResult are wall-clock values with no algorithmic content and are left
out of the embedding. -/

/-- Embedding of the RawFetchResult dataclass. -/
structure RawFetchResult where
  url : String
  original_url : String
  status_code : Nat
  headers : List (String × String)
  html : List Node
  fetch_time_ms : Nat

/-- Embedding of the RenderedFetchResult dataclass. -/
structure RenderedFetchResult where
  url : String
  original_url : String
  html : List Node
  success : Bool
  fetch_time_ms : Nat
  error_message : Option String

/-- Embedding of the URLAnalysis dataclass. -/
structure URLAnalysis where
  url : String
  final_url : String
  http_status : Nat
  raw_fetch : Option RawFetchResult
  rendered_fetch : Option RenderedFetchResult
  raw_content : Option ExtractedContent
  rendered_content : Option ExtractedContent
  differences : Option DifferenceReport
  fetch_errors : List String
  render_errors : List String
  extraction_errors : List String

/-- Embedding of the URLAnalysis.success property. -/
def URLAnalysis.success (a : URLAnalysis) : Bool :=
  a.fetch_errors.isEmpty && a.render_errors.isEmpty &&
  a.extraction_errors.isEmpty && a.raw_content.isSome

/-- Embedding of the JobResult dataclass without its two timestamps. -/
structure JobResult where
  urls_processed : Nat
  urls_succeeded : Nat
  urls_failed : Nat
  results : List URLAnalysis

/-! ## src/src/engine/job_runner.py, JobRunner

The two fetch collaborators are abstracted as an oracle giving each URL
its raw and rendered outcomes, each an optional result paired with an
optional error message, exactly the tuple shape the fetchers return.  An
unexpected exception escaping a per-URL task (the case gather collects
with return_exceptions) is abstracted as an optional exception text per
URL. -/

/-- The fetch outcomes a given URL receives from the two collaborators. -/
structure FetchOracle where
  raw : Option RawFetchResult × Option String
  rendered : Option RenderedFetchResult × Option String

/-- Embedding of JobRunner._process_url for one URL given its fetch
outcomes: record errors, choose status and final URL, extract from each
successful fetch, and compare when both extractions exist.  The extractor
and differ calls sit in try-except blocks in the source; the embedded
pipeline is total, so the except branches contribute no extraction
errors. -/
def processUrl (url : String) (o : FetchOracle) : URLAnalysis :=
  let rawFetch := o.raw.1
  let rawError := o.raw.2
  let fetchErrors := match rawError with
    | some e => [e]
    | none => []
  let statusFinal : Nat × String :=
    if rawError.isSome || rawFetch.isNone then (0, url)
    else
      match rawFetch with
      | some rf => (rf.status_code, rf.url)
      | none => (0, url)
  let renPair := if rawFetch.isSome then o.rendered else (none, none)
  let renderErrors := match renPair.2 with
    | some e => [e]
    | none => []
  let rawContent := match rawFetch with
    | some rf => some (extract (some rf.url) rf.html)
    | none => none
  let renderedContent := match renPair.1 with
    | some rf => if rf.success then some (extract (some rf.url) rf.html) else none
    | none => none
  let differences := match rawContent, renderedContent with
    | some rc, some nc => some (compare rc nc)
    | _, _ => none
  { url := url
    final_url := statusFinal.2
    http_status := statusFinal.1
    raw_fetch := rawFetch
    rendered_fetch := renPair.1
    raw_content := rawContent
    rendered_content := renderedContent
    differences := differences
    fetch_errors := fetchErrors
    render_errors := renderErrors
    extraction_errors := [] }

/-- The synthetic analysis run_job_async builds when a task escapes with
an exception: both URLs set to the input URL, status zero, and a single
descriptive fetch error. -/
def failedAnalysis (url msg : String) : URLAnalysis :=
  { url := url
    final_url := url
    http_status := 0
    raw_fetch := none
    rendered_fetch := none
    raw_content := none
    rendered_content := none
    differences := none
    fetch_errors := ["Unexpected error: " ++ msg]
    render_errors := []
    extraction_errors := [] }

/-- Embedding of JobRunner.run_job_async: validate and deduplicate, run
every per-URL task (each yielding either an analysis or an escaped
exception collected by gather), convert exceptions at the join, and
aggregate the counts.  enum is the set-iteration order of the dedup step,
exc the optional escaped exception per URL, oracle the fetch
collaborators. -/
def runJobAsync (enum : List String → List String)
    (exc : String → Option String) (oracle : String → FetchOracle)
    (urls : List String) : JobResult :=
  let validated := validateAndDeduplicate enum urls
  let outcomes : List (Except String URLAnalysis) := validated.map (fun u =>
    match exc u with
    | some e => Except.error e
    | none => Except.ok (processUrl u (oracle u)))
  let analyses := List.zipWith (fun u r =>
    match r with
    | Except.error e => failedAnalysis u e
    | Except.ok a => a) validated outcomes
  let succeeded := (analyses.filter (fun a => a.success)).length
  { urls_processed := validated.length
    urls_succeeded := succeeded
    urls_failed := analyses.length - succeeded
    results := analyses }

/-! ## Specification-side definitions used to settle the claims

Each of the following formalizes wording of the specification or of a
claim, for comparison against the embedded source functions above. -/

/-- The hidden-element condition as the amended claim reads: a style
substring test, a substring test on the space-joined class attribute, and
a case-insensitive aria-hidden equality. -/
def HiddenSpec (e : ElemData) : Prop :=
  containsSub (pyLower e.style) "display:none" = true ∨
  containsSub (pyLower e.style) "visibility:hidden" = true ∨
  containsSub (pyLower (joinClasses e.classes)) "hidden" = true ∨
  pyLower e.ariaHidden = "true"

/-- The hidden-element condition as claim C8 states it: the class check
demands the literal token hidden in the class list, not a substring. -/
def hiddenPerClaim (e : ElemData) : Prop :=
  containsSub (pyLower e.style) "display:none" = true ∨
  containsSub (pyLower e.style) "visibility:hidden" = true ∨
  "hidden" ∈ e.classes.map pyLower ∨
  pyLower e.ariaHidden = "true"

/-- An element whose only notable attribute is the class nav-hiddenish,
which holds hidden as a substring but not as a class token. -/
def navElem : ElemData :=
  ⟨"div", "", "", "", ["nav-hiddenish"], "", none⟩

/-- An element hidden by inline style. -/
def hiddenDiv : ElemData :=
  ⟨"div", "", "", "display:none", [], "", none⟩

/-- Strip one leading www-dot occurrence and nothing else, the host
normalization claim C6 describes. -/
def stripLeadWwwChars : List Char → List Char
  | 'w' :: 'w' :: 'w' :: '.' :: rest => rest
  | l => l

/-- String version of the leading-only www-dot strip. -/
def stripLeadingWww (s : String) : String :=
  String.mk (stripLeadWwwChars s.toList)

/-- The internal-link classification as claim C6 states it: equality of
hosts after stripping only a leading www-dot from each side. -/
def claimInternal (baseUrl : Option String) (href : String) : Bool :=
  match baseUrl with
  | none => true
  | some b => stripLeadingWww (hostPart b) == stripLeadingWww (hostPart href)

/-- Fragments of a character list between its non-overlapping www-dot
occurrences, scanning left to right; an independent formulation of the
replace-all semantics for the amended claim C6. -/
def wwwSplit : List Char → List (List Char)
  | 'w' :: 'w' :: 'w' :: '.' :: rest => [] :: wwwSplit rest
  | c :: rest =>
    match wwwSplit rest with
    | [] => [[c]]
    | f :: fs => (c :: f) :: fs
  | [] => [[]]

/-- Removal of every www-dot occurrence stated as fragment concatenation. -/
def removeAllWww (s : String) : String :=
  String.mk (wwwSplit s.toList).flatten

/-- A fetch oracle whose raw fetch failed with a transport error, used for
concrete job-runner instances. -/
def noFetchOracle : FetchOracle :=
  ⟨(none, some "HTTP error: connection refused"), (none, none)⟩

/-! ## Claim theorems -/

/-- Claim C5: the URLInput factory is claimed to fail on every string that
does not itself start with an http or https scheme, in particular on
whitespace-padded URLs.  The embedded validator accepts the padded URL
(and even an uppercase scheme), because the source lowercases and strips
the string before the scheme check, while the padded string itself starts
with neither scheme — the rejection its own unit test expects. -/
theorem urlInput_accepts_whitespace_padded :
    urlInputValid "  https://example.com  " = true ∧
    pyStartsWith "  https://example.com  " "http://" = false ∧
    pyStartsWith "  https://example.com  " "https://" = false ∧
    urlInputValid "HTTP://example.com" = true := by
  decide

/-- Claim C10: the wait step is claimed to terminate for every strategy
string, with unrecognized strategies falling back to network idle.  The
embedded recursion returns for the three recognized strategies in one
step, but for any other strategy it re-enters itself with the strategy
unchanged and exhausts every finite fuel supply: the source recurses
forever instead of falling back. -/
theorem waitForContent_unrecognized_never_returns :
    (∀ fuel, waitForContentFuel "custom_wait" fuel = none) ∧
    waitForContentFuel "network_idle" 1 = some "wait_networkidle" ∧
    waitForContentFuel "load" 1 = some "wait_load" ∧
    waitForContentFuel "timeout" 1 = some "sleep_half_timeout" := by
  refine ⟨?_, rfl, rfl, rfl⟩
  intro fuel
  induction fuel with
  | zero => rfl
  | succ n ih =>
    rw [waitForContentFuel]
    rw [if_neg (by decide), if_neg (by decide), if_neg (by decide)]
    exact ih

/-- Claim C2: the validation and deduplication step is claimed to return
valid URLs in deterministic first-seen order, independent of hash-based
set iteration.  The embedded step applies the unspecified set enumeration
to the set contents: the identity enumeration yields first-seen order but
the reversing enumeration, an equally admissible set iteration order (a
permutation of the same contents), yields the opposite order on the same
input, so the output order does depend on the iteration order. -/
theorem validateAndDeduplicate_order_depends_on_enumeration :
    validateAndDeduplicate id ["http://a.com", "http://b.com"] =
      ["http://a.com", "http://b.com"] ∧
    validateAndDeduplicate List.reverse ["http://a.com", "http://b.com"] =
      ["http://b.com", "http://a.com"] ∧
    (List.reverse ["http://a.com", "http://b.com"]).Perm
      ["http://a.com", "http://b.com"] := by
  decide

/-- Claim C1: the heading list of extract is claimed to be in document
order, the h2 text preceding the h1 text when the h2 comes first.  On
exactly such a document the embedded extractor returns the h1 text first,
because the source collects all level-1 headings before any level-2
heading; the document-order list the claim (and the docstring and unit
test of the source) demands is the reverse. -/
theorem extract_headings_grouped_by_level :
    (extract none [mkTag "h2" [Node.text "Second"],
      mkTag "h1" [Node.text "First"]]).headings = ["First", "Second"] ∧
    headingsInDocumentOrder [mkTag "h2" [Node.text "Second"],
      mkTag "h1" [Node.text "First"]] = ["Second", "First"] := by
  constructor <;>
    simp [extract, mkTag, scrubNodes, removeCookieBanners, isCookieBanner,
      matchesCookieSelector, containsSub, hasSub, joinClasses, joinWith,
      cookieKeywords, getText, allStrings, pyLower, extractHeadings,
      headingTags, findTag, getTextStrip, pyStrip, headingsInDocumentOrder,
      ignoredTags]

/-- Claim C9, counterexample: the invisible-content percentage is claimed
to equal the exact quotient formula whenever rendered exceeds raw, but
the source rounds to two decimals: with raw count 1 and rendered count 3
the embedded property yields sixty-six point six seven, which differs
from the exact value of the claimed formula. -/
theorem contentInvisiblePct_rounds_two_decimals :
    (mkDiffReport 1 3).content_invisible_without_js_percentage = 6667 / 100 ∧
    (6667 / 100 : ℚ) ≠ (((3 : ℚ) - 1) / 3) * 100 := by
  constructor
  · show DifferenceReport.content_invisible_without_js_percentage _ = _
    rw [DifferenceReport.content_invisible_without_js_percentage]
    norm_num [mkDiffReport, round2, round_eq, Int.floor_eq_iff]
  · norm_num

/-- Claim C9, amended: the delta is rendered minus raw; the percentage is
the two-decimal rounding of the quotient formula when rendered exceeds
raw and zero otherwise; the quoted instance with raw 3 and rendered 6
yields delta 3 and percentage exactly 50. -/
theorem contentInvisiblePct_spec :
    (∀ d : DifferenceReport,
      d.word_count_delta = (d.rendered_word_count : ℤ) - (d.raw_word_count : ℤ)) ∧
    (∀ d : DifferenceReport, d.raw_word_count < d.rendered_word_count →
      d.content_invisible_without_js_percentage =
        round2 ((((d.rendered_word_count : ℚ) - (d.raw_word_count : ℚ)) /
          (d.rendered_word_count : ℚ)) * 100)) ∧
    (∀ d : DifferenceReport, d.rendered_word_count ≤ d.raw_word_count →
      d.content_invisible_without_js_percentage = 0) ∧
    (mkDiffReport 3 6).word_count_delta = 3 ∧
    (mkDiffReport 3 6).content_invisible_without_js_percentage = 50 := by
  refine ⟨fun d => rfl, fun d h => ?_, fun d h => ?_, by rfl, ?_⟩
  · rw [DifferenceReport.content_invisible_without_js_percentage]
    rw [if_neg (by omega), if_neg (by omega)]
  · rw [DifferenceReport.content_invisible_without_js_percentage]
    rcases Nat.eq_zero_or_pos d.rendered_word_count with h0 | h0
    · rw [if_pos h0]
    · rw [if_neg (by omega), if_pos h]
  · show DifferenceReport.content_invisible_without_js_percentage _ = _
    rw [DifferenceReport.content_invisible_without_js_percentage]
    norm_num [mkDiffReport, round2, round_eq, Int.floor_eq_iff]

/-- The accumulation loop consumes the leading run extending its current
block, flushes it under the threshold, and restarts after the run. -/
theorem goBlocks_run (uniq : List String) (ws : List String) :
    ∀ cur : List String,
    goBlocks uniq ws cur cur.length =
      (if 3 ≤ (cur ++ ws.takeWhile (fun w => uniq.contains (pyLower w))).length
       then [joinWith " " (cur ++ ws.takeWhile (fun w => uniq.contains (pyLower w)))]
       else []) ++
      goBlocks uniq (ws.dropWhile (fun w => uniq.contains (pyLower w))) [] 0 := by
  induction ws with
  | nil => intro cur; simp [goBlocks]
  | cons w ws ih =>
    intro cur
    by_cases hw : uniq.contains (pyLower w) = true
    · rw [goBlocks, if_pos hw]
      have h1 : cur.length + 1 = (cur ++ [w]).length := by simp
      rw [h1, ih (cur ++ [w])]
      rw [List.takeWhile_cons, List.dropWhile_cons]
      rw [if_pos hw, if_pos hw]
      simp [List.append_assoc]
    · rw [goBlocks, if_neg hw]
      have h2 : goBlocks uniq (w :: ws) [] 0 = goBlocks uniq ws [] 0 := by
        rw [goBlocks, if_neg hw]; simp
      rw [List.takeWhile_cons, List.dropWhile_cons]
      rw [if_neg hw, if_neg hw]
      rw [h2]
      simp

/-- Started empty, the accumulation loop emits exactly the maximal unique
runs of length at least three, joined with single spaces in order. -/
theorem goBlocks_eq_spec (uniq : List String) :
    ∀ n (ws : List String), ws.length ≤ n →
    goBlocks uniq ws [] 0 =
      ((uniqueRuns (fun w => uniq.contains (pyLower w)) ws).filter
        (fun r => 3 ≤ r.length)).map (joinWith " ") := by
  intro n
  induction n with
  | zero =>
    intro ws h
    have hws : ws = [] := List.length_eq_zero.mp (Nat.le_zero.mp h)
    subst hws
    rw [goBlocks, uniqueRuns]
    simp
  | succ n ih =>
    intro ws h
    match ws with
    | [] =>
      rw [goBlocks, uniqueRuns]
      simp
    | w :: ws =>
      simp only [List.length_cons] at h
      by_cases hw : uniq.contains (pyLower w) = true
      · have hrun := goBlocks_run uniq (w :: ws) []
        simp only [List.nil_append, List.length_nil] at hrun
        rw [hrun]
        have hlen : ((ws).dropWhile (fun v => uniq.contains (pyLower v))).length ≤ n :=
          le_trans (List.Sublist.length_le (List.dropWhile_sublist _))
            (Nat.le_of_succ_le_succ h)
        rw [uniqueRuns, if_pos hw]
        rw [List.takeWhile_cons, List.dropWhile_cons]
        rw [if_pos hw, if_pos hw]
        rw [ih _ hlen]
        rw [List.filter_cons]
        by_cases h3 : 3 ≤ (w :: List.takeWhile (fun v => uniq.contains (pyLower v)) ws).length
        · rw [if_pos h3, if_pos (by simpa using h3)]
          simp
        · rw [if_neg h3, if_neg (by simpa using h3)]
          simp
      · rw [goBlocks, if_neg hw]
        rw [uniqueRuns, if_neg hw]
        have := ih ws (Nat.le_of_succ_le_succ h)
        simpa using this

/-- With an empty unique set no token qualifies, so there are no runs. -/
theorem uniqueRuns_of_empty (ws : List String) :
    uniqueRuns (fun w => ([] : List String).contains (pyLower w)) ws = [] := by
  induction ws with
  | nil => rw [uniqueRuns]
  | cons w ws ih =>
    rw [uniqueRuns]
    rw [if_neg (by simp)]
    exact ih

/-- Claim C7: the emitted text blocks are exactly the maximal contiguous
runs of unique tokens of length at least three, each joined with single
spaces with token order and original casing preserved; in particular no
run shorter than three tokens is ever emitted, the accumulator resets on
every non-unique token, and the final run is flushed under the same
threshold. -/
theorem groupWordsIntoBlocks_spec (text : String) (uniq : List String) :
    groupWordsIntoBlocks text uniq =
      ((uniqueRuns (fun w => uniq.contains (pyLower w)) (splitWs text)).filter
        (fun r => 3 ≤ r.length)).map (joinWith " ") := by
  rw [groupWordsIntoBlocks]
  by_cases he : uniq.isEmpty
  · rw [if_pos he]
    have huniq : uniq = [] := List.isEmpty_iff.mp he
    subst huniq
    rw [uniqueRuns_of_empty]
    simp
  · rw [if_neg he]
    exact goBlocks_eq_spec uniq (splitWs text).length (splitWs text) le_rfl

/-- The one-element hidden test agrees with the spec-side condition. -/
theorem hiddenMarker_iff (e : ElemData) :
    hiddenMarker e = true ↔ HiddenSpec e := by
  rw [hiddenMarker, HiddenSpec]
  simp only [Bool.or_eq_true, decide_eq_true_eq]
  tauto

/-- The visibility walk rejects a chain exactly when some element of the
chain satisfies the hidden condition. -/
theorem isElementVisible_false_iff (chain : List ElemData) :
    isElementVisible chain = false ↔ ∃ e ∈ chain, HiddenSpec e := by
  induction chain with
  | nil => simp [isElementVisible]
  | cons e anc ih =>
    rw [isElementVisible]
    by_cases hm : hiddenMarker e = true
    · simp only [if_pos hm]
      constructor
      · intro _
        exact ⟨e, List.mem_cons_self e anc, (hiddenMarker_iff e).mp hm⟩
      · intro _
        trivial
    · rw [if_neg hm, ih]
      constructor
      · rintro ⟨x, hx, hs⟩
        exact ⟨x, List.mem_cons_of_mem e hx, hs⟩
      · rintro ⟨x, hx, hs⟩
        rcases List.mem_cons.mp hx with hxe | hxa
        · subst hxe
          exact absurd ((hiddenMarker_iff x).mpr hs) hm
        · exact ⟨x, hxa, hs⟩

/-- Under a chain holding a hidden element, the visible-text collection of
any subtree is empty. -/
theorem collectVisible_nil_of_hidden :
    ∀ (chain : List ElemData) (ns : List Node),
    (∃ e ∈ chain, HiddenSpec e) → collectVisible chain ns = [] := by
  intro chain ns
  induction chain, ns using collectVisible.induct with
  | case1 chain =>
    intro _
    rw [collectVisible]
  | case2 chain s rest ih =>
    intro h
    rw [collectVisible]
    rw [(isElementVisible_false_iff chain).mpr h]
    simpa using ih h
  | case3 chain c rest ih =>
    intro h
    rw [collectVisible]
    exact ih h
  | case4 chain e cs rest ih1 ih2 =>
    intro h
    rw [collectVisible]
    rcases h with ⟨x, hx, hs⟩
    rw [ih1 ⟨x, List.mem_cons_of_mem e hx, hs⟩, ih2 ⟨x, hx, hs⟩]
    rfl

/-- Claim C8, amended: an element chain is judged invisible exactly when
it holds an element whose inline style contains the display-none or
visibility-hidden substrings, whose space-joined class attribute contains
hidden as a substring (so a class like nav-hiddenish also hides), or
whose aria-hidden equals true case-insensitively; and no text below such
a chain ever reaches the visible-text collection, regardless of depth. -/
theorem visibility_marks_inherited :
    (∀ chain : List ElemData,
      isElementVisible chain = false ↔ ∃ e ∈ chain, HiddenSpec e) ∧
    (∀ (chain : List ElemData) (ns : List Node),
      (∃ e ∈ chain, HiddenSpec e) → collectVisible chain ns = []) :=
  ⟨isElementVisible_false_iff, collectVisible_nil_of_hidden⟩

/-- Witness for the amended C8 theorem: a chain holding an element with
inline display-none satisfies the hidden condition and its subtree text
is dropped. -/
theorem visibility_marks_inherited_witness :
    (∃ e ∈ [hiddenDiv], HiddenSpec e) ∧
    collectVisible [hiddenDiv] [Node.text "x"] = [] :=
  ⟨⟨hiddenDiv, by simp, by rw [HiddenSpec]; decide⟩,
   visibility_marks_inherited.2 [hiddenDiv] [Node.text "x"]
     ⟨hiddenDiv, by simp, by rw [HiddenSpec]; decide⟩⟩

/-- Claim C8, counterexample: the element with class nav-hiddenish is
judged invisible by the embedded walk and its text is excluded from the
visible text, although the claim says a class merely containing hidden as
a substring must not hide the element. -/
theorem class_substring_hides_unrelated_class :
    isElementVisible [navElem] = false ∧
    ¬ hiddenPerClaim navElem ∧
    (extract none [Node.elem navElem [Node.text "peekaboo"]]).visible_text = "" := by
  refine ⟨by decide, ?_, ?_⟩
  · rw [hiddenPerClaim]
    decide
  · have hspec : HiddenSpec navElem := by
      rw [HiddenSpec]
      decide
    have hsoup : removeCookieBanners (scrubNodes
        [Node.elem navElem [Node.text "peekaboo"]]) =
        [Node.elem navElem [Node.text "peekaboo"]] := by
      simp [scrubNodes, removeCookieBanners, isCookieBanner,
        matchesCookieSelector, containsSub, hasSub, getText, allStrings,
        joinWith, pyLower, joinClasses, cookieKeywords, navElem, ignoredTags]
    have hcol : collectVisible [] [Node.elem navElem [Node.text "peekaboo"]] = [] := by
      rw [collectVisible]
      rw [collectVisible_nil_of_hidden [navElem] [Node.text "peekaboo"]
        ⟨navElem, by simp, hspec⟩]
      rw [collectVisible]
      rfl
    rw [extract]
    rw [hsoup, extractVisibleText, hcol]
    rfl

/-- The fueled visibility walk returns the unfueled answer whenever the
fuel exceeds the chain length. -/
theorem isElementVisibleFuel_complete :
    ∀ (chain : List ElemData) (n : Nat), chain.length < n →
    isElementVisibleFuel n chain = some (isElementVisible chain) := by
  intro chain
  induction chain with
  | nil =>
    intro n h
    match n, h with
    | n + 1, _ => rfl
  | cons e anc ih =>
    intro n h
    match n, h with
    | n + 1, h =>
      rw [isElementVisibleFuel, isElementVisible]
      by_cases hm : hiddenMarker e = true
      · rw [if_pos hm, if_pos hm]
      · rw [if_neg hm, if_neg hm]
        exact ih n (by simpa using Nat.lt_of_succ_lt_succ h)

/-- The fueled visible-text collection never runs out of fuel: it always
returns the total collection. -/
theorem collectVisibleF_eq :
    ∀ (chain : List ElemData) (ns : List Node),
    collectVisibleF chain ns = some (collectVisible chain ns) := by
  intro chain ns
  induction chain, ns using collectVisible.induct with
  | case1 chain =>
    rw [collectVisibleF, collectVisible]
  | case2 chain s rest ih =>
    rw [collectVisibleF, collectVisible]
    rw [isElementVisibleFuel_complete chain (chain.length + 1) (Nat.lt_succ_self _)]
    rw [ih]
    rfl
  | case3 chain c rest ih =>
    rw [collectVisibleF, collectVisible]
    exact ih
  | case4 chain e cs rest ih1 ih2 =>
    rw [collectVisibleF, collectVisible]
    rw [ih1, ih2]
    rfl

/-- Claim C3: for every parsed document, however deep or degenerate, the
extraction pipeline with its stack use made explicit returns normally
with the extracted content — in particular the visibility recursion, the
only unbounded recursion of the source, always has enough frames — and
the empty document yields the empty content. -/
theorem extract_never_raises :
    (∀ (baseUrl : Option String) (html : List Node),
      extractE baseUrl html = Except.ok (extract baseUrl html)) ∧
    extract none [] =
      { visible_text := "", headings := [], internal_links := [] } := by
  constructor
  · intro b h
    rw [extractE, extract]
    rw [collectVisibleF_eq]
    rfl
  · simp [extract, scrubNodes, removeCookieBanners, extractVisibleText,
      collectVisible, joinWith, normalizeWhitespaceM, collapseWsAux, pyStrip,
      extractHeadings, headingTags, findTag, extractInternalLinks, findLinks]

/-- The left-to-right replacement scan equals splitting on the pattern
and concatenating the fragments. -/
theorem remWww_eq_flatten : ∀ l, remWwwChars l = (wwwSplit l).flatten := by
  intro l
  induction l using wwwSplit.induct with
  | case1 rest ih =>
    rw [remWwwChars, wwwSplit]
    simpa using ih
  | case2 c rest h hm ih =>
    rw [remWwwChars.eq_2 c rest h, wwwSplit.eq_2 c rest h, hm]
    rw [hm] at ih
    simpa using ih
  | case3 c rest h f fs hm ih =>
    rw [remWwwChars.eq_2 c rest h, wwwSplit.eq_2 c rest h, hm]
    rw [hm] at ih
    simpa using ih
  | case4 => rfl

/-- Replacing every occurrence is unchanged by first stripping a leading
occurrence. -/
theorem remWww_stripLead (l : List Char) :
    remWwwChars l = remWwwChars (stripLeadWwwChars l) := by
  rw [stripLeadWwwChars.eq_def]
  split
  · rw [remWwwChars]
  · rfl

/-- The replace call of the source equals the fragment formulation. -/
theorem pyReplaceWww_eq_removeAll (s : String) :
    pyReplaceWww s = removeAllWww s := by
  rw [pyReplaceWww, removeAllWww, remWww_eq_flatten]

/-- Claim C6, counterexample: with base host example-dot-www-dot-com the
embedded classifier accepts a link to host example-dot-com, because the
replace call removes the interior www-dot occurrence; the claim, which
strips a leading www-dot only, classifies the same link as external. -/
theorem isInternalLink_replaces_interior_www :
    isInternalLink (some "http://example.www.com") "http://example.com/a" = true ∧
    claimInternal (some "http://example.www.com") "http://example.com/a" = false := by
  decide

/-- Claim C6, amended: with no base URL every link is internal; with a
base URL a link is internal exactly when the hosts agree after removing
every www-dot occurrence from each side (equivalently, after splitting on
that substring and concatenating the fragments); agreement after
stripping only a leading www-dot still suffices; and a distinct subdomain
stays external. -/
theorem isInternalLink_spec :
    (∀ href, isInternalLink none href = true) ∧
    (∀ b href, isInternalLink (some b) href =
      (removeAllWww (hostPart b) == removeAllWww (hostPart href))) ∧
    (∀ b href, stripLeadingWww (hostPart b) = stripLeadingWww (hostPart href) →
      isInternalLink (some b) href = true) ∧
    isInternalLink (some "http://example.com") "https://sub.example.com/page" = false := by
  refine ⟨fun href => rfl, fun b href => ?_, fun b href heq => ?_, by decide⟩
  · show (pyReplaceWww (hostPart b) == pyReplaceWww (hostPart href)) = _
    rw [pyReplaceWww_eq_removeAll, pyReplaceWww_eq_removeAll]
  · rw [stripLeadingWww, stripLeadingWww] at heq
    injection heq with hchars
    have h2 : remWwwChars (hostPart b).toList =
        remWwwChars (hostPart href).toList := by
      rw [remWww_stripLead ((hostPart b).toList), hchars, ← remWww_stripLead]
    show (pyReplaceWww (hostPart b) == pyReplaceWww (hostPart href)) = true
    rw [pyReplaceWww, pyReplaceWww, h2]
    exact beq_self_eq_true _

/-- Witness for the amended C6 theorem: base with a leading www-dot and a
bare link host agree after the leading strip, and the classifier accepts
the link. -/
theorem isInternalLink_spec_witness :
    stripLeadingWww (hostPart "http://www.example.com") =
      stripLeadingWww (hostPart "http://example.com/") ∧
    isInternalLink (some "http://www.example.com") "http://example.com/" = true :=
  ⟨by decide,
   isInternalLink_spec.2.2.1 "http://www.example.com" "http://example.com/"
     (by decide)⟩

/-- The join of run_job_async produces exactly one analysis per validated
URL: the escaped-exception conversion for tasks that failed and the task
result otherwise. -/
theorem runJobAsync_results_eq (enum : List String → List String)
    (exc : String → Option String) (oracle : String → FetchOracle)
    (urls : List String) :
    (runJobAsync enum exc oracle urls).results =
      (validateAndDeduplicate enum urls).map (fun u =>
        match exc u with
        | some e => failedAnalysis u e
        | none => processUrl u (oracle u)) := by
  show List.zipWith _ _ (List.map _ _) = _
  rw [List.zipWith_map_right, List.zipWith_same]
  congr 1
  funext u
  cases exc u <;> rfl

/-- Claim C4: the batch is never aborted and no URL is lost — the output
list has one analysis per validated URL, the analysis at each position
carries the URL of that position, and whenever the task for a URL escapes with
an exception the analysis is the synthetic failure record, whose fetch
error list is a single descriptive message, whose final URL equals the
original URL, and whose HTTP status is zero. -/
theorem run_job_isolates_failures (enum : List String → List String)
    (exc : String → Option String) (oracle : String → FetchOracle)
    (urls : List String) (i : Nat)
    (h : i < (validateAndDeduplicate enum urls).length) :
    (runJobAsync enum exc oracle urls).results.length =
      (validateAndDeduplicate enum urls).length ∧
    ((runJobAsync enum exc oracle urls).results.getD i (failedAnalysis "" "")).url =
      (validateAndDeduplicate enum urls).getD i "" ∧
    (∀ e, exc ((validateAndDeduplicate enum urls).getD i "") = some e →
      (runJobAsync enum exc oracle urls).results.getD i (failedAnalysis "" "") =
        failedAnalysis ((validateAndDeduplicate enum urls).getD i "") e) ∧
    (∀ u e, (failedAnalysis u e).fetch_errors = ["Unexpected error: " ++ e] ∧
      (failedAnalysis u e).final_url = u ∧ (failedAnalysis u e).http_status = 0) := by
  have hget : (runJobAsync enum exc oracle urls).results.getD i (failedAnalysis "" "") =
      (match exc ((validateAndDeduplicate enum urls).getD i "") with
      | some e => failedAnalysis ((validateAndDeduplicate enum urls).getD i "") e
      | none => processUrl ((validateAndDeduplicate enum urls).getD i "")
          (oracle ((validateAndDeduplicate enum urls).getD i ""))) := by
    rw [runJobAsync_results_eq]
    rw [List.getD_eq_getElem?_getD, List.getElem?_map, List.getElem?_eq_getElem h]
    rw [List.getD_eq_getElem?_getD, List.getElem?_eq_getElem h]
    rfl
  refine ⟨?_, ?_, ?_, fun u e => ⟨rfl, rfl, rfl⟩⟩
  · rw [runJobAsync_results_eq]
    simp
  · rw [hget]
    cases hexc : exc ((validateAndDeduplicate enum urls).getD i "") <;> rfl
  · intro e he
    rw [hget, he]

/-- Witness for the C4 theorem: one validated URL whose task escapes with
an exception yields exactly the synthetic failure analysis. -/
theorem run_job_isolates_failures_witness :
    0 < (validateAndDeduplicate id ["http://a.com"]).length ∧
    ((runJobAsync id (fun _ => some "boom") (fun _ => noFetchOracle)
        ["http://a.com"]).results.getD 0 (failedAnalysis "" "")) =
      failedAnalysis "http://a.com" "boom" := by
  have h0 : 0 < (validateAndDeduplicate id ["http://a.com"]).length := by decide
  refine ⟨h0, ?_⟩
  have h := (run_job_isolates_failures id (fun _ => some "boom")
    (fun _ => noFetchOracle) ["http://a.com"] 0 h0).2.2.1 "boom" rfl
  have hv : (validateAndDeduplicate id ["http://a.com"]).getD 0 "" = "http://a.com" := by
    decide
  rw [hv] at h
  exact h

/-- Witness for the amended C9 theorem at raw count 1 and rendered count
3: the hypothesis of the rounded-formula branch holds there. -/
theorem contentInvisiblePct_spec_witness :
    (mkDiffReport 1 3).raw_word_count < (mkDiffReport 1 3).rendered_word_count ∧
    (mkDiffReport 1 3).content_invisible_without_js_percentage =
      round2 (((((mkDiffReport 1 3).rendered_word_count : ℚ) -
        ((mkDiffReport 1 3).raw_word_count : ℚ)) /
        ((mkDiffReport 1 3).rendered_word_count : ℚ)) * 100) :=
  ⟨by decide, contentInvisiblePct_spec.2.1 (mkDiffReport 1 3) (by decide)⟩

end SeoDiff
